import Mathlib

/-!
Verification of the mcp-server-kintone request dispatch and translation
engine, shallowly embedded from the Go sources (`main.go` and the older
per-app-permission variant).  Backend HTTP interaction is modelled by
passing the backend's responses as explicit arguments and recording the
requests an executor issues as an explicit list, so that claims about
"no request is made" become statements about that list.
-/

set_option autoImplicit false

/-- JSON-RPC error object as produced via the go-jsonrpc2 library:
a numeric code plus a message string.  (The optional `Data` payload is
modelled where a claim needs it.) -/
structure KErr where
  code : Int
  message : String
  deriving Repr, DecidableEq

/-- JSON-RPC 2.0 invalid-params code used by go-jsonrpc2 (`InvalidParamsCode`). -/
def invalidParamsCode : Int := -32602

/-- JSON-RPC 2.0 internal-error code used by go-jsonrpc2 (`InternalErrorCode`). -/
def internalErrorCode : Int := -32603

/-- Minimal JSON value universe: enough structure to distinguish booleans
from every other JSON shape, as `KintoneAppConfig.UnmarshalJSON` only
inspects whether a value is a boolean. -/
inductive JVal where
  | bool (b : Bool)
  | str (s : String)
  | num (n : Int)
  | null
  | arr (elems : List JVal)
  | obj (fields : List (String × JVal))

/-- Go `map[string]any` decoded from a JSON object, as an association list
of its key/value pairs (lookup order is irrelevant for maps; we prove it). -/
abbrev JsonMap := List (String × JVal)

/-- Handler state of the newer (global allow/deny list) variant:
`KintoneHandlers` from `main.go`. -/
structure KintoneHandlers where
  URL : String
  Auth : String
  Token : String
  Allow : List String
  Deny : List String
  deriving Repr, DecidableEq

/-- Embedding of `(*KintoneHandlers).checkPermissions` from `main.go`
(lines 304-319): deny-list membership is checked first, then a non-empty
allow list restricts to its members.  Returns `none` when access is
permitted, mirroring the Go function returning a nil error.  The function
takes no operation/capability argument, exactly as in the source. -/
def checkPermissions (h : KintoneHandlers) (id : String) : Option KErr :=
  if h.Deny.contains id then
    some ⟨invalidParamsCode,
      "App ID " ++ id ++ " is inaccessible because it is listed in the KINTONE_DENY_APPS environment variable. Please check the MCP server settings."⟩
  else if h.Allow.length > 0 && !(h.Allow.contains id) then
    some ⟨invalidParamsCode,
      "App ID " ++ id ++ " is inaccessible because it is not listed in the KINTONE_ALLOW_APPS environment variable. Please check the MCP server settings."⟩
  else
    none

/-- C1: the global-list access check permits `R` iff `R` is not in the deny
list and (the allow list is empty or `R` is in the allow list); in
particular an app on both lists is denied, and with an empty allow list
any app outside the deny list is permitted.  `checkPermissions` takes no
operation argument, so the check is identical for read, write and delete. -/
theorem checkPermissions_permit_iff (h : KintoneHandlers) (id : String) :
    (checkPermissions h id = none ↔
      (¬ id ∈ h.Deny ∧ (h.Allow = [] ∨ id ∈ h.Allow)))
    ∧ (id ∈ h.Deny → id ∈ h.Allow → checkPermissions h id ≠ none)
    ∧ (h.Allow = [] → ¬ id ∈ h.Deny → checkPermissions h id = none) := by
  have hmain : checkPermissions h id = none ↔
      (¬ id ∈ h.Deny ∧ (h.Allow = [] ∨ id ∈ h.Allow)) := by
    unfold checkPermissions
    by_cases hd : id ∈ h.Deny
    · simp [hd]
    · by_cases hnil : h.Allow = []
      · simp [hd, hnil]
      · by_cases hmem : id ∈ h.Allow
        · simp [hd, hnil, hmem]
        · simp [hd, hnil, hmem, List.length_pos.mpr hnil]
  refine ⟨hmain, ?_, ?_⟩
  · intro hdeny hallow hc
    exact (hmain.mp hc).1 hdeny
  · intro hnil hdeny
    exact hmain.mpr ⟨hdeny, Or.inl hnil⟩

/-- C1 witness: instantiation at a concrete handler configuration. -/
theorem checkPermissions_permit_iff_inst :
    checkPermissions ⟨"https://x.cybozu.com", "", "tok", [], ["7"]⟩ "5" = none ∧
    checkPermissions ⟨"https://x.cybozu.com", "", "tok", ["7"], ["7"]⟩ "7" ≠ none := by
  constructor
  · exact (checkPermissions_permit_iff ⟨"https://x.cybozu.com", "", "tok", [], ["7"]⟩ "5").2.2
      rfl (by decide)
  · exact (checkPermissions_permit_iff ⟨"https://x.cybozu.com", "", "tok", ["7"], ["7"]⟩ "7").2.1
      (by decide) (by decide)

/-- Lookup in a decoded JSON object with Go map semantics: iterating the
object's fields in order and storing each into the map, a later duplicate
key overwrites an earlier one, so the LAST binding wins. -/
def jlookup (k : String) : JsonMap → Option JVal
  | [] => none
  | (k₁, v) :: rest =>
    match jlookup k rest with
    | some v₁ => some v₁
    | none => if k₁ = k then some v else none

/-- Per-app permission triple (`Permissions` struct in the older variant). -/
structure Permissions where
  read : Bool
  write : Bool
  delete : Bool
  deriving Repr, DecidableEq

/-- Embedding of the `getPerm` closure inside
`KintoneAppConfig.UnmarshalJSON`: an absent key yields the given default,
a boolean value is taken as-is, and any other JSON value is an error. -/
def getPerm (perms : JsonMap) (key : String) (dflt : Bool) : Except String Bool :=
  match jlookup key perms with
  | some (JVal.bool b) => Except.ok b
  | some _ => Except.error "members of 'permissions' must be boolean"
  | none => Except.ok dflt

/-- Embedding of the permissions part of `KintoneAppConfig.UnmarshalJSON`
(older variant, sequential early-return on the first failing key):
read defaults to `true`, write and delete to `false`. -/
def unmarshalPermissions (perms : JsonMap) : Except String Permissions :=
  match getPerm perms "read" true with
  | Except.error e => Except.error e
  | Except.ok r =>
    match getPerm perms "write" false with
    | Except.error e => Except.error e
    | Except.ok w =>
      match getPerm perms "delete" false with
      | Except.error e => Except.error e
      | Except.ok d => Except.ok ⟨r, w, d⟩

theorem jlookup_perm (k : String) {l₁ l₂ : JsonMap} (hp : l₁.Perm l₂) :
    (l₁.map Prod.fst).Nodup → jlookup k l₁ = jlookup k l₂ := by
  induction hp with
  | nil => intro _; rfl
  | cons x hp ih =>
    intro hnd
    simp only [List.map_cons, List.nodup_cons] at hnd
    obtain ⟨p, v⟩ := x
    simp only [jlookup, ih hnd.2]
  | swap x y t =>
    intro hnd
    obtain ⟨a, va⟩ := y
    obtain ⟨b, vb⟩ := x
    simp only [List.map_cons, List.nodup_cons, List.mem_cons] at hnd
    have hab : a ≠ b := fun h => hnd.1 (Or.inl h)
    simp only [jlookup]
    cases hr : jlookup k t with
    | some v => rfl
    | none =>
      by_cases hak : a = k
      · by_cases hbk : b = k
        · exact absurd (hak.trans hbk.symm) hab
        · simp [hak, hbk]
      · by_cases hbk : b = k
        · simp [hak, hbk]
        · simp [hak, hbk]
  | trans hp₁ hp₂ ih₁ ih₂ =>
    intro hnd
    have hnd₂ := ((hp₁.map Prod.fst).nodup_iff).mp hnd
    rw [ih₁ hnd, ih₂ hnd₂]

theorem getPerm_error_msg (l : JsonMap) (key : String) (d : Bool) (e : String)
    (h : getPerm l key d = Except.error e) :
    e = "members of 'permissions' must be boolean" := by
  unfold getPerm at h
  cases hl : jlookup key l with
  | none => rw [hl] at h; cases h
  | some v =>
    rw [hl] at h
    cases v with
    | bool b => cases h
    | str s => cases h; rfl
    | num n => cases h; rfl
    | null => cases h; rfl
    | arr es => cases h; rfl
    | obj fs => cases h; rfl

theorem getPerm_nonbool (l : JsonMap) (key : String) (d : Bool) (v : JVal)
    (hl : jlookup key l = some v) (hnb : ∀ b, v ≠ JVal.bool b) :
    getPerm l key d = Except.error "members of 'permissions' must be boolean" := by
  unfold getPerm
  rw [hl]
  cases v with
  | bool b => exact absurd rfl (hnb b)
  | str s => rfl
  | num n => rfl
  | null => rfl
  | arr es => rfl
  | obj fs => rfl

/-- C2: a permissions object with no keys parses to
`read=true, write=false, delete=false`; parsing is invariant under
reordering of the object's (distinct) keys; each key independently takes
its default when absent; and a non-boolean value under any of the three
keys makes the parse fail. -/
theorem unmarshalJSON_permission_defaults :
    (unmarshalPermissions [] = Except.ok ⟨true, false, false⟩)
    ∧ (∀ l₁ l₂ : JsonMap, l₁.Perm l₂ → (l₁.map Prod.fst).Nodup →
        unmarshalPermissions l₁ = unmarshalPermissions l₂)
    ∧ (∀ l : JsonMap, ∀ p : Permissions, unmarshalPermissions l = Except.ok p →
        (jlookup "read" l = none → p.read = true)
        ∧ (jlookup "write" l = none → p.write = false)
        ∧ (jlookup "delete" l = none → p.delete = false))
    ∧ (∀ l : JsonMap, ∀ k : String, (k = "read" ∨ k = "write" ∨ k = "delete") →
        ∀ v : JVal, jlookup k l = some v → (∀ b, v ≠ JVal.bool b) →
        unmarshalPermissions l = Except.error "members of 'permissions' must be boolean") := by
  refine ⟨rfl, ?_, ?_, ?_⟩
  · intro l₁ l₂ hp hnd
    unfold unmarshalPermissions getPerm
    rw [jlookup_perm "read" hp hnd, jlookup_perm "write" hp hnd,
      jlookup_perm "delete" hp hnd]
  · intro l p hok
    unfold unmarshalPermissions at hok
    cases hr : getPerm l "read" true with
    | error e => rw [hr] at hok; cases hok
    | ok r =>
      rw [hr] at hok
      cases hw : getPerm l "write" false with
      | error e => rw [hw] at hok; cases hok
      | ok w =>
        rw [hw] at hok
        cases hd : getPerm l "delete" false with
        | error e => rw [hd] at hok; cases hok
        | ok d =>
          rw [hd] at hok
          cases hok
          refine ⟨?_, ?_, ?_⟩
          · intro habs
            unfold getPerm at hr
            rw [habs] at hr
            cases hr
            rfl
          · intro habs
            unfold getPerm at hw
            rw [habs] at hw
            cases hw
            rfl
          · intro habs
            unfold getPerm at hd
            rw [habs] at hd
            cases hd
            rfl
  · intro l k hk v hv hnb
    unfold unmarshalPermissions
    rcases hk with hk | hk | hk
    · rw [hk] at hv
      rw [getPerm_nonbool l "read" true v hv hnb]
    · rw [hk] at hv
      cases hr : getPerm l "read" true with
      | error e => rw [getPerm_error_msg l "read" true e hr]
      | ok r => rw [getPerm_nonbool l "write" false v hv hnb]
    · rw [hk] at hv
      cases hr : getPerm l "read" true with
      | error e => rw [getPerm_error_msg l "read" true e hr]
      | ok r =>
        cases hw : getPerm l "write" false with
        | error e => rw [getPerm_error_msg l "write" false e hw]
        | ok w => rw [getPerm_nonbool l "delete" false v hv hnb]

/-- C2 witness: instantiations at concrete permission objects. -/
theorem unmarshalJSON_permission_defaults_inst :
    unmarshalPermissions [] = Except.ok ⟨true, false, false⟩
    ∧ unmarshalPermissions [("write", JVal.str "yes")]
        = Except.error "members of 'permissions' must be boolean" := by
  constructor
  · exact unmarshalJSON_permission_defaults.1
  · exact unmarshalJSON_permission_defaults.2.2.2 [("write", JVal.str "yes")] "write"
      (Or.inr (Or.inl rfl)) (JVal.str "yes") rfl (fun b h => JVal.noConfusion h)

/-- Arguments of the `readRecords` tool as decoded by `ReadRecords` in
`main.go`: `limit` is a `*int`, so an explicit JSON `0` decodes to
`some 0`, not to "absent". -/
structure ReadRecordsParams where
  appID : String
  query : String
  limit : Option Int
  fields : List String
  offset : Int

/-- Embedding of the validation prefix of `(*KintoneHandlers).ReadRecords`
(`main.go` lines 447-480): required `appID`, then the limit default/range
check, then the offset range check.  Returns the effective `(limit, offset)`
pair that the handler would put into the backend request. -/
def readRecordsValidate (p : ReadRecordsParams) : Except KErr (Int × Int) :=
  if p.appID = "" then
    Except.error ⟨invalidParamsCode, "Argument 'appID' is required"⟩
  else
    match
      (match p.limit with
       | none => Except.ok 10
       | some l =>
         if l < 1 || l > 500 then
           Except.error (⟨invalidParamsCode, "Limit must be between 1 and 500"⟩ : KErr)
         else Except.ok l) with
    | Except.error e => Except.error e
    | Except.ok l =>
      if p.offset < 0 || p.offset > 10000 then
        Except.error ⟨invalidParamsCode, "Offset must be between 0 and 10000"⟩
      else
        Except.ok (l, p.offset)

/-- C3 counterexample: an explicit `limit=0` is NOT coerced to the default
`10`; the handler rejects it with the limit range error. -/
theorem readRecords_limit_zero_rejected :
    readRecordsValidate ⟨"1", "", some 0, [], 0⟩
      = Except.error ⟨invalidParamsCode, "Limit must be between 1 and 500"⟩ := by
  rfl

/-- C3 (amended): an absent limit defaults to 10; an explicit limit outside
`[1,500]` (hence also `0`, `501` and `-1`) is rejected; an offset outside
`[0,10000]` (hence `10001`) is rejected; in-range values (hence `offset=0`)
are accepted with the explicit limit kept. -/
theorem readRecords_validation_amended (p : ReadRecordsParams) (ha : p.appID ≠ "") :
    (p.limit = none → 0 ≤ p.offset → p.offset ≤ 10000 →
      readRecordsValidate p = Except.ok (10, p.offset))
    ∧ (∀ l : Int, p.limit = some l → (l < 1 ∨ l > 500) →
      readRecordsValidate p
        = Except.error ⟨invalidParamsCode, "Limit must be between 1 and 500"⟩)
    ∧ (∀ l : Int, p.limit = some l → 1 ≤ l → l ≤ 500 →
      (p.offset < 0 ∨ p.offset > 10000) →
      readRecordsValidate p
        = Except.error ⟨invalidParamsCode, "Offset must be between 0 and 10000"⟩)
    ∧ (∀ l : Int, p.limit = some l → 1 ≤ l → l ≤ 500 →
      0 ≤ p.offset → p.offset ≤ 10000 →
      readRecordsValidate p = Except.ok (l, p.offset)) := by
  unfold readRecordsValidate
  refine ⟨?_, ?_, ?_, ?_⟩
  · intro hlim ho₁ ho₂
    rw [hlim]
    have h₁ : ¬ (p.offset < 0) := not_lt.mpr ho₁
    have h₂ : ¬ (p.offset > 10000) := not_lt.mpr ho₂
    simp [ha, h₁, h₂]
  · intro l hlim hout
    rw [hlim]
    have hl : (l < 1 || l > 500) = true := by
      rcases hout with h | h
      · simp [h]
      · simp [h]
    simp [ha, hl]
  · intro l hlim hl₁ hl₂ hout
    rw [hlim]
    have hl : ¬ (l < 1 || l > 500) = true := by
      simp only [Bool.or_eq_true, decide_eq_true_eq]
      push_neg
      exact ⟨hl₁, hl₂⟩
    have ho : (p.offset < 0 || p.offset > 10000) = true := by
      rcases hout with h | h
      · simp [h]
      · simp [h]
    simp [ha, hl, ho]
  · intro l hlim hl₁ hl₂ ho₁ ho₂
    rw [hlim]
    have hl : ¬ (l < 1 || l > 500) = true := by
      simp only [Bool.or_eq_true, decide_eq_true_eq]
      push_neg
      exact ⟨hl₁, hl₂⟩
    have ho₁' : ¬ (p.offset < 0) := not_lt.mpr ho₁
    have ho₂' : ¬ (p.offset > 10000) := not_lt.mpr ho₂
    simp [ha, hl, ho₁', ho₂']

/-- C3 witness: concrete inputs for the amended claim. -/
theorem readRecords_validation_amended_inst :
    readRecordsValidate ⟨"1", "", none, [], 0⟩ = Except.ok (10, 0)
    ∧ readRecordsValidate ⟨"1", "", some 501, [], 0⟩
        = Except.error ⟨invalidParamsCode, "Limit must be between 1 and 500"⟩
    ∧ readRecordsValidate ⟨"1", "", some (-1), [], 0⟩
        = Except.error ⟨invalidParamsCode, "Limit must be between 1 and 500"⟩
    ∧ readRecordsValidate ⟨"1", "", some 10, [], 10001⟩
        = Except.error ⟨invalidParamsCode, "Offset must be between 0 and 10000"⟩
    ∧ readRecordsValidate ⟨"1", "", some 500, [], 0⟩ = Except.ok (500, 0) := by
  refine ⟨?_, ?_, ?_, ?_, ?_⟩
  · exact (readRecords_validation_amended ⟨"1", "", none, [], 0⟩ (by decide)).1
      rfl (by decide) (by decide)
  · exact (readRecords_validation_amended ⟨"1", "", some 501, [], 0⟩ (by decide)).2.1
      501 rfl (Or.inr (by decide))
  · exact (readRecords_validation_amended ⟨"1", "", some (-1), [], 0⟩ (by decide)).2.1
      (-1) rfl (Or.inl (by decide))
  · exact (readRecords_validation_amended ⟨"1", "", some 10, [], 10001⟩ (by decide)).2.2.1
      10 rfl (by decide) (by decide) (Or.inr (by decide))
  · exact (readRecords_validation_amended ⟨"1", "", some 500, [], 0⟩ (by decide)).2.2.2
      500 rfl (by decide) (by decide) (by decide) (by decide)

/-- Arguments of the `readRecordComments` tool (`ReadRecordComments` in
`main.go`): `order` decodes to `""` when absent, `limit` is a `*int`. -/
structure ReadCommentsParams where
  appID : String
  recordID : String
  order : String
  offset : Int
  limit : Option Int

/-- Effective order after applying the default: an empty order becomes
`"desc"`. -/
def effectiveOrder (o : String) : String :=
  if o = "" then "desc" else o

/-- Embedding of the validation prefix of
`(*KintoneHandlers).ReadRecordComments` (`main.go` lines 820-867):
required ids, then order default/enum check, then offset check, then
limit default/range check (range `[0,10]`, message text says 1 and 10). -/
def readRecordCommentsValidate (p : ReadCommentsParams) :
    Except KErr (String × Int × Int) :=
  if p.appID = "" || p.recordID = "" then
    Except.error ⟨invalidParamsCode, "Arguments 'appID' and 'recordID' are required"⟩
  else if p.order ≠ "" && p.order ≠ "asc" && p.order ≠ "desc" then
    Except.error ⟨invalidParamsCode, "Order must be 'asc' or 'desc'"⟩
  else if p.offset < 0 then
    Except.error ⟨invalidParamsCode, "Offset must be greater than or equal to 0"⟩
  else
    match p.limit with
    | none => Except.ok (effectiveOrder p.order, p.offset, 10)
    | some l =>
      if l < 0 || l > 10 then
        Except.error ⟨invalidParamsCode, "Limit must be between 1 and 10"⟩
      else
        Except.ok (effectiveOrder p.order, p.offset, l)

/-- C9: with required ids present, an absent limit defaults to 10; an
explicit limit is accepted exactly when it lies in `[0,10]` and rejected
otherwise; a negative offset is rejected; order defaults to `"desc"` when
absent and any other value than `"asc"`/`"desc"` is rejected. -/
theorem readRecordComments_validation (p : ReadCommentsParams)
    (ha : p.appID ≠ "") (hr : p.recordID ≠ "") :
    (¬ (p.order = "" ∨ p.order = "asc" ∨ p.order = "desc") →
      readRecordCommentsValidate p
        = Except.error ⟨invalidParamsCode, "Order must be 'asc' or 'desc'"⟩)
    ∧ ((p.order = "" ∨ p.order = "asc" ∨ p.order = "desc") → p.offset < 0 →
      readRecordCommentsValidate p
        = Except.error ⟨invalidParamsCode, "Offset must be greater than or equal to 0"⟩)
    ∧ ((p.order = "" ∨ p.order = "asc" ∨ p.order = "desc") → 0 ≤ p.offset →
      (p.limit = none →
        readRecordCommentsValidate p
          = Except.ok (effectiveOrder p.order, p.offset, 10))
      ∧ (∀ l : Int, p.limit = some l →
        (readRecordCommentsValidate p
            = Except.ok (effectiveOrder p.order, p.offset, l)
          ↔ (0 ≤ l ∧ l ≤ 10)))
      ∧ (∀ l : Int, p.limit = some l → (l < 0 ∨ l > 10) →
        readRecordCommentsValidate p
          = Except.error ⟨invalidParamsCode, "Limit must be between 1 and 10"⟩)) := by
  have hids : (p.appID = "" || p.recordID = "") = false := by
    simp [ha, hr]
  refine ⟨?_, ?_, ?_⟩
  · intro hbad
    push_neg at hbad
    obtain ⟨h₁, h₂, h₃⟩ := hbad
    unfold readRecordCommentsValidate
    simp [hids, h₁, h₂, h₃]
  · intro hord hoff
    have hordb : (p.order ≠ "" && p.order ≠ "asc" && p.order ≠ "desc") = false := by
      rcases hord with h | h | h <;> simp [h]
    unfold readRecordCommentsValidate
    simp [hids, hordb, hoff]
    intro h₁ h₂
    rcases hord with h | h | h
    · exact absurd h h₁
    · exact absurd h h₂
    · exact h
  · intro hord hoff
    have hordb : (p.order ≠ "" && p.order ≠ "asc" && p.order ≠ "desc") = false := by
      rcases hord with h | h | h <;> simp [h]
    have hoff' : ¬ (p.offset < 0) := not_lt.mpr hoff
    refine ⟨?_, ?_, ?_⟩
    · intro hlim
      unfold readRecordCommentsValidate
      rw [hlim]
      simp [hids, hordb, hoff']
      intro h₁ h₂
      rcases hord with h | h | h
      · exact absurd h h₁
      · exact absurd h h₂
      · exact h
    · intro l hlim
      unfold readRecordCommentsValidate
      rw [hlim]
      by_cases hl : (l < 0 || l > 10) = true
      · simp only [hids, Bool.false_eq_true, if_false, hordb, hoff', hl, if_true]
        constructor
        · intro hcontra; cases hcontra
        · rintro ⟨h₁, h₂⟩
          simp only [Bool.or_eq_true, decide_eq_true_eq] at hl
          rcases hl with h | h
          · exact absurd h (not_lt.mpr h₁)
          · exact absurd h (not_lt.mpr h₂)
      · simp only [hids, Bool.false_eq_true, if_false, hordb, hoff', hl, if_false]
        simp only [Bool.or_eq_true, decide_eq_true_eq] at hl
        push_neg at hl
        constructor
        · intro _; exact ⟨hl.1, hl.2⟩
        · intro _; simp
    · intro l hlim hout
      unfold readRecordCommentsValidate
      rw [hlim]
      have hl : (l < 0 || l > 10) = true := by
        rcases hout with h | h <;> simp [h]
      simp [hids, hordb, hoff', hl]
      intro h₁ h₂
      rcases hord with h | h | h
      · exact absurd h h₁
      · exact absurd h h₂
      · exact h

/-- C9 witness: concrete inputs covering each clause. -/
theorem readRecordComments_validation_inst :
    readRecordCommentsValidate ⟨"1", "2", "x", 0, none⟩
      = Except.error ⟨invalidParamsCode, "Order must be 'asc' or 'desc'"⟩
    ∧ readRecordCommentsValidate ⟨"1", "2", "", -1, none⟩
      = Except.error ⟨invalidParamsCode, "Offset must be greater than or equal to 0"⟩
    ∧ readRecordCommentsValidate ⟨"1", "2", "", 0, none⟩
      = Except.ok ("desc", 0, 10)
    ∧ readRecordCommentsValidate ⟨"1", "2", "asc", 0, some 0⟩
      = Except.ok ("asc", 0, 0)
    ∧ readRecordCommentsValidate ⟨"1", "2", "desc", 0, some 10⟩
      = Except.ok ("desc", 0, 10)
    ∧ readRecordCommentsValidate ⟨"1", "2", "", 0, some (-1)⟩
      = Except.error ⟨invalidParamsCode, "Limit must be between 1 and 10"⟩
    ∧ readRecordCommentsValidate ⟨"1", "2", "", 0, some 11⟩
      = Except.error ⟨invalidParamsCode, "Limit must be between 1 and 10"⟩ := by
  refine ⟨?_, ?_, ?_, ?_, ?_, ?_, ?_⟩
  · exact (readRecordComments_validation ⟨"1", "2", "x", 0, none⟩ (by decide)
      (by decide)).1 (by decide)
  · exact (readRecordComments_validation ⟨"1", "2", "", -1, none⟩ (by decide)
      (by decide)).2.1 (Or.inl rfl) (by decide)
  · exact ((readRecordComments_validation ⟨"1", "2", "", 0, none⟩ (by decide)
      (by decide)).2.2 (Or.inl rfl) (by decide)).1 rfl
  · exact ((readRecordComments_validation ⟨"1", "2", "asc", 0, some 0⟩ (by decide)
      (by decide)).2.2 (Or.inr (Or.inl rfl)) (by decide)).2.1 0 rfl |>.mpr
      ⟨by decide, by decide⟩
  · exact ((readRecordComments_validation ⟨"1", "2", "desc", 0, some 10⟩ (by decide)
      (by decide)).2.2 (Or.inr (Or.inr rfl)) (by decide)).2.1 10 rfl |>.mpr
      ⟨by decide, by decide⟩
  · exact ((readRecordComments_validation ⟨"1", "2", "", 0, some (-1)⟩ (by decide)
      (by decide)).2.2 (Or.inl rfl) (by decide)).2.2 (-1) rfl (Or.inl (by decide))
  · exact ((readRecordComments_validation ⟨"1", "2", "", 0, some 11⟩ (by decide)
      (by decide)).2.2 (Or.inl rfl) (by decide)).2.2 11 rfl (Or.inr (by decide))

/-- HTTP response as seen by `SendHTTP`: numeric status code, status line
text, and the raw body bytes. -/
structure HTTPResponse where
  statusCode : Int
  status : String
  body : String
  deriving Repr, DecidableEq

/-- Embedding of the response-handling tail of
`(*KintoneHandlers).SendHTTP` (`main.go` lines 177-186): a status code
different from `http.StatusOK` (200) becomes an internal error whose
message carries the status line and the raw body; otherwise the response
is returned unchanged. -/
def sendHTTPCheck (res : HTTPResponse) : Except KErr HTTPResponse :=
  if res.statusCode ≠ 200 then
    Except.error ⟨internalErrorCode,
      "kintone server returned an error: " ++ res.status ++ "\n" ++ res.body⟩
  else
    Except.ok res

/-- Boolean error discriminator for `Except`. -/
def isErr {ε α : Type} : Except ε α → Bool
  | Except.error _ => true
  | Except.ok _ => false

/-- Embedding of `FetchHTTPWithReader`'s decode step (`main.go` lines
189-206): on success the body is decoded with the operation's decoder, a
decode failure becoming an internal error. -/
def fetchHTTPDecode {α : Type} (decode : String → Option α) (res : HTTPResponse) :
    Except KErr α :=
  match sendHTTPCheck res with
  | Except.error e => Except.error e
  | Except.ok r =>
    match decode r.body with
    | none => Except.error ⟨internalErrorCode, "Failed to parse kintone server's response"⟩
    | some v => Except.ok v

/-- C4 counterexample: status 204 is a 2xx success status, yet the client
reports a backend error, refuting "backend error iff the status is not a
2xx success status". -/
theorem sendHTTP_status204_cex :
    ¬ (isErr (sendHTTPCheck ⟨204, "204 No Content", "x"⟩) = true
        ↔ ¬ (200 ≤ (204 : Int) ∧ (204 : Int) < 300)) := by
  intro h
  exact (h.mp rfl) (by constructor <;> decide)

/-- C4 (amended): the backend client reports a backend error iff the
status code differs from exactly 200; on any non-200 status the raw body
is attached to the error message unparsed; on a 200 status the body is
decoded with the operation's decoder. -/
theorem sendHTTP_error_iff_not_200 (res : HTTPResponse) :
    (isErr (sendHTTPCheck res) = true ↔ res.statusCode ≠ 200)
    ∧ (res.statusCode ≠ 200 →
      sendHTTPCheck res = Except.error ⟨internalErrorCode,
        "kintone server returned an error: " ++ res.status ++ "\n" ++ res.body⟩)
    ∧ (∀ (α : Type) (decode : String → Option α), res.statusCode = 200 →
      fetchHTTPDecode decode res =
        match decode res.body with
        | none => Except.error ⟨internalErrorCode, "Failed to parse kintone server's response"⟩
        | some v => Except.ok v) := by
  refine ⟨?_, ?_, ?_⟩
  · unfold sendHTTPCheck
    by_cases hs : res.statusCode = 200
    · simp [hs, isErr]
    · simp [hs, isErr]
  · intro hs
    unfold sendHTTPCheck
    simp [hs]
  · intro α decode hs
    unfold fetchHTTPDecode sendHTTPCheck
    simp [hs]

/-- C4 witness: concrete responses on both sides of the amended boundary. -/
theorem sendHTTP_error_iff_not_200_inst :
    sendHTTPCheck ⟨500, "500 Internal Server Error", "oops"⟩
      = Except.error ⟨internalErrorCode,
          "kintone server returned an error: 500 Internal Server Error\noops"⟩
    ∧ isErr (sendHTTPCheck ⟨200, "200 OK", "{}"⟩) = false := by
  constructor
  · exact (sendHTTP_error_iff_not_200 ⟨500, "500 Internal Server Error", "oops"⟩).2.1
      (by decide)
  · have h := (sendHTTP_error_iff_not_200 ⟨200, "200 OK", "{}"⟩).1
    cases hv : isErr (sendHTTPCheck ⟨200, "200 OK", "{}"⟩) with
    | false => rfl
    | true => exact absurd (h.mp hv) (by simp)

/-- Per-app configuration entry of the older variant (`KintoneAppConfig`). -/
structure KintoneAppConfig where
  id : String
  description : String
  permissions : Permissions
  deriving Repr, DecidableEq

/-- Embedding of `(*KintoneHandlers).getApp`: first configuration entry
with the requested id. -/
def getApp (apps : List KintoneAppConfig) (id : String) : Option KintoneAppConfig :=
  apps.find? (fun app => app.id == id)

/-- Capability constants (`Perm` in the older variant). -/
inductive Perm where
  | something
  | read
  | write
  | delete
  deriving Repr, DecidableEq

/-- String form of a capability, used in denial messages. -/
def permString : Perm → String
  | Perm.something => "do something"
  | Perm.read => "read"
  | Perm.write => "write"
  | Perm.delete => "delete"

/-- One disjunct of the grant test inside the older `checkPermissions`:
`(p == PermRead && perms.Read) || (p == PermWrite && perms.Write) ||
(p == PermDelete && perms.Delete) || (p == PermSomething)`. -/
def permGranted (perms : Permissions) : Perm → Bool
  | Perm.read => perms.read
  | Perm.write => perms.write
  | Perm.delete => perms.delete
  | Perm.something => true

/-- Embedding of the older, capability-taking
`(*KintoneHandlers).checkPermissions(id, ps...)`: unknown app ids are
denied; otherwise access is granted iff ANY requested capability is
granted by the app's permission triple. -/
def checkPermissionsCap (apps : List KintoneAppConfig) (id : String)
    (ps : List Perm) : Option KErr :=
  match getApp apps id with
  | none => some ⟨invalidParamsCode,
      "App ID " ++ id ++ " is not found or not allowed to access. Please check the MCP server settings and/or ask to the administrator."⟩
  | some app =>
    if ps.any (permGranted app.permissions) then
      none
    else
      some ⟨invalidParamsCode,
        "Permission denied to " ++ String.intercalate ", " (ps.map permString)
          ++ " records in app ID " ++ id
          ++ ". Please check the MCP server settings and/or ask to the administrator."⟩

/-- Requests an executor can issue to the backend, recorded in order. -/
inductive BackendReq where
  | readRec (appID recordID : String)
  | deleteRec (appID recordID : String)
  deriving Repr, DecidableEq

/-- Arguments of the `deleteRecord` tool. -/
structure DeleteRecordParams where
  appID : String
  recordID : String
  deriving Repr, DecidableEq

/-- Result payload of a successful `deleteRecord` call: the
`deletedRecord` key is present only when the pre-read ran and returned a
non-nil record. -/
structure DeleteResult where
  success : Bool
  deletedRecord : Option JsonMap

/-- Embedding of `(*KintoneHandlers).DeleteRecord` (older variant,
`part_006` lines 719-758; the newer `main.go` variant is identical except
that its permission check takes no capability): required arguments, a
delete-capability check, a pre-read guarded by a read-capability check
(an error there aborts the flow), then the DELETE request.  The backend's
answers to the pre-read and the delete are passed in as `readResp` and
`delResp`; the second component lists the backend requests issued. -/
def deleteRecordExec (apps : List KintoneAppConfig) (p : DeleteRecordParams)
    (readResp : Except KErr (Option JsonMap)) (delResp : Except KErr Unit) :
    Except KErr DeleteResult × List BackendReq :=
  if p.appID = "" || p.recordID = "" then
    (Except.error ⟨invalidParamsCode, "Arguments 'appID' and 'recordID' are required"⟩, [])
  else
    match checkPermissionsCap apps p.appID [Perm.delete] with
    | some e => (Except.error e, [])
    | none =>
      if checkPermissionsCap apps p.appID [Perm.read] = none then
        match readResp with
        | Except.error e => (Except.error e, [BackendReq.readRec p.appID p.recordID])
        | Except.ok r =>
          match delResp with
          | Except.error e =>
            (Except.error e,
              [BackendReq.readRec p.appID p.recordID,
               BackendReq.deleteRec p.appID p.recordID])
          | Except.ok _ =>
            (Except.ok ⟨true, r⟩,
              [BackendReq.readRec p.appID p.recordID,
               BackendReq.deleteRec p.appID p.recordID])
      else
        match delResp with
        | Except.error e => (Except.error e, [BackendReq.deleteRec p.appID p.recordID])
        | Except.ok _ => (Except.ok ⟨true, none⟩, [BackendReq.deleteRec p.appID p.recordID])

/-- C5: when delete and read are both permitted, a successful delete
returns the pre-read record content and both requests are issued; when
delete is permitted but read is not, the delete still happens and the
result reports success without record content. -/
theorem deleteRecord_roundtrip (apps : List KintoneAppConfig)
    (p : DeleteRecordParams) (r : JsonMap)
    (ha : p.appID ≠ "") (hr : p.recordID ≠ "")
    (hdel : checkPermissionsCap apps p.appID [Perm.delete] = none) :
    (checkPermissionsCap apps p.appID [Perm.read] = none →
      deleteRecordExec apps p (Except.ok (some r)) (Except.ok ())
        = (Except.ok ⟨true, some r⟩,
            [BackendReq.readRec p.appID p.recordID,
             BackendReq.deleteRec p.appID p.recordID]))
    ∧ (checkPermissionsCap apps p.appID [Perm.read] ≠ none →
      deleteRecordExec apps p (Except.ok (some r)) (Except.ok ())
        = (Except.ok ⟨true, none⟩, [BackendReq.deleteRec p.appID p.recordID])) := by
  have hids : (p.appID = "" || p.recordID = "") = false := by
    simp [ha, hr]
  constructor
  · intro hread
    unfold deleteRecordExec
    rw [hids, hdel]
    simp [hread]
  · intro hread
    unfold deleteRecordExec
    rw [hids, hdel]
    simp [hread]

/-- C5 witness: a read+delete app and a delete-only app. -/
theorem deleteRecord_roundtrip_inst :
    deleteRecordExec [⟨"1", "", ⟨true, false, true⟩⟩] ⟨"1", "9"⟩
        (Except.ok (some [("t", JVal.str "v")])) (Except.ok ())
      = (Except.ok ⟨true, some [("t", JVal.str "v")]⟩,
          [BackendReq.readRec "1" "9", BackendReq.deleteRec "1" "9"])
    ∧ deleteRecordExec [⟨"2", "", ⟨false, false, true⟩⟩] ⟨"2", "9"⟩
        (Except.ok (some [("t", JVal.str "v")])) (Except.ok ())
      = (Except.ok ⟨true, none⟩, [BackendReq.deleteRec "2" "9"]) := by
  constructor
  · exact (deleteRecord_roundtrip [⟨"1", "", ⟨true, false, true⟩⟩] ⟨"1", "9"⟩
      [("t", JVal.str "v")] (by decide) (by decide) (by decide)).1 (by decide)
  · exact (deleteRecord_roundtrip [⟨"2", "", ⟨false, false, true⟩⟩] ⟨"2", "9"⟩
      [("t", JVal.str "v")] (by decide) (by decide) (by decide)).2 (by decide)

/-- C6: when the pre-read is attempted (read permitted) and fails, the
executor returns that error and the DELETE request is never issued. -/
theorem deleteRecord_preread_failure_atomic (apps : List KintoneAppConfig)
    (p : DeleteRecordParams) (e : KErr) (delResp : Except KErr Unit)
    (ha : p.appID ≠ "") (hr : p.recordID ≠ "")
    (hdel : checkPermissionsCap apps p.appID [Perm.delete] = none)
    (hread : checkPermissionsCap apps p.appID [Perm.read] = none) :
    deleteRecordExec apps p (Except.error e) delResp
      = (Except.error e, [BackendReq.readRec p.appID p.recordID])
    ∧ ∀ a b : String,
      ¬ BackendReq.deleteRec a b ∈ (deleteRecordExec apps p (Except.error e) delResp).2 := by
  have hids : (p.appID = "" || p.recordID = "") = false := by
    simp [ha, hr]
  have hmain : deleteRecordExec apps p (Except.error e) delResp
      = (Except.error e, [BackendReq.readRec p.appID p.recordID]) := by
    unfold deleteRecordExec
    rw [hids, hdel]
    simp [hread]
  refine ⟨hmain, ?_⟩
  intro a b hmem
  rw [hmain] at hmem
  simp at hmem

/-- C6 witness: a failing pre-read on a read+delete app. -/
theorem deleteRecord_preread_failure_atomic_inst :
    deleteRecordExec [⟨"1", "", ⟨true, false, true⟩⟩] ⟨"1", "9"⟩
        (Except.error ⟨internalErrorCode, "boom"⟩) (Except.ok ())
      = (Except.error ⟨internalErrorCode, "boom"⟩, [BackendReq.readRec "1" "9"]) := by
  exact (deleteRecord_preread_failure_atomic [⟨"1", "", ⟨true, false, true⟩⟩] ⟨"1", "9"⟩
    ⟨internalErrorCode, "boom"⟩ (Except.ok ()) (by decide) (by decide)
    (by decide) (by decide)).1

/-- Arguments of the `uploadAttachmentFile` tool: `path` and `content`
are `*string`, so absent and present-but-empty are distinguishable. -/
structure UploadParams where
  path : Option String
  name : String
  content : Option String
  base64 : Bool

/-- Embedding of Go `filepath.Base` for slash-separated paths: last
non-empty path element, `"."` for the empty path, `"/"` for all-slashes. -/
def filepathBase (s : String) : String :=
  if s = "" then "."
  else
    match (s.splitOn "/").reverse.find? (fun q => q != "") with
    | some b => b
    | none => "/"

/-- The single multipart POST to `/k/v1/file.json` that a successful
upload issues. -/
inductive UploadBackendReq where
  | postFile (filename : String) (payload : String)
  deriving Repr, DecidableEq

/-- Embedding of `(*KintoneHandlers).UploadAttachmentFile` (`main.go`
lines 718-818).  The mime extension table, local file reads and base64
decoding are environment effects of the Go mime/os/encoding packages and
are passed as oracles; `backendResp` is the backend's answer to the POST.
The second component lists the backend requests issued. -/
def uploadAttachmentFile (p : UploadParams) (mimeExt : String → Option String)
    (fileRead : String → Except KErr String)
    (b64decode : String → Except KErr String)
    (backendResp : Except KErr String) :
    Except KErr String × List UploadBackendReq :=
  match p.path, p.content with
  | none, none =>
    (Except.error ⟨invalidParamsCode, "Arguments 'path' or 'content' is required"⟩, [])
  | some _, some _ =>
    (Except.error ⟨invalidParamsCode, "Arguments 'path' and 'content' are mutually exclusive"⟩, [])
  | some pa, none =>
    let filename := filepathBase pa
    match fileRead pa with
    | Except.error e => (Except.error e, [])
    | Except.ok data =>
      match backendResp with
      | Except.error e => (Except.error e, [UploadBackendReq.postFile filename data])
      | Except.ok fileKey => (Except.ok fileKey, [UploadBackendReq.postFile filename data])
  | none, some c =>
    let filename :=
      if p.name = "" then
        "file" ++ ((mimeExt p.name).getD "")
      else p.name
    match (if p.base64 then b64decode c else Except.ok c) with
    | Except.error e => (Except.error e, [])
    | Except.ok data =>
      match backendResp with
      | Except.error e => (Except.error e, [UploadBackendReq.postFile filename data])
      | Except.ok fileKey => (Except.ok fileKey, [UploadBackendReq.postFile filename data])

/-- C7: an arguments object with both `path` and `content`, or with
neither, yields an invalid-params error and no backend request at all,
whatever the environment oracles and the backend would have answered. -/
theorem uploadAttachmentFile_exclusivity (p : UploadParams)
    (mimeExt : String → Option String) (fileRead : String → Except KErr String)
    (b64decode : String → Except KErr String) (backendResp : Except KErr String) :
    (p.path = none → p.content = none →
      uploadAttachmentFile p mimeExt fileRead b64decode backendResp
        = (Except.error ⟨invalidParamsCode, "Arguments 'path' or 'content' is required"⟩, []))
    ∧ (∀ pa c : String, p.path = some pa → p.content = some c →
      uploadAttachmentFile p mimeExt fileRead b64decode backendResp
        = (Except.error ⟨invalidParamsCode, "Arguments 'path' and 'content' are mutually exclusive"⟩, [])) := by
  constructor
  · intro hp hc
    unfold uploadAttachmentFile
    rw [hp, hc]
  · intro pa c hp hc
    unfold uploadAttachmentFile
    rw [hp, hc]

/-- C7 witness: both argument shapes at concrete oracles. -/
theorem uploadAttachmentFile_exclusivity_inst :
    uploadAttachmentFile ⟨none, "a.txt", none, false⟩ (fun _ => none)
        (fun _ => Except.ok "data") (fun s => Except.ok s) (Except.ok "key")
      = (Except.error ⟨invalidParamsCode, "Arguments 'path' or 'content' is required"⟩, [])
    ∧ uploadAttachmentFile ⟨some "/tmp/a.txt", "", some "hello", false⟩ (fun _ => none)
        (fun _ => Except.ok "data") (fun s => Except.ok s) (Except.ok "key")
      = (Except.error ⟨invalidParamsCode, "Arguments 'path' and 'content' are mutually exclusive"⟩, []) := by
  constructor
  · exact (uploadAttachmentFile_exclusivity ⟨none, "a.txt", none, false⟩ (fun _ => none)
      (fun _ => Except.ok "data") (fun s => Except.ok s) (Except.ok "key")).1 rfl rfl
  · exact (uploadAttachmentFile_exclusivity ⟨some "/tmp/a.txt", "", some "hello", false⟩
      (fun _ => none) (fun _ => Except.ok "data") (fun s => Except.ok s)
      (Except.ok "key")).2 "/tmp/a.txt" "hello" rfl rfl

/-- Arguments of the `listApps` tool. -/
structure ListAppsParams where
  offset : Int
  limit : Option Int
  name : Option String

/-- Backend app descriptor; only the fields `ListApps` inspects. -/
structure KintoneAppDetail where
  appID : String
  name : String
  deriving Repr, DecidableEq

/-- Embedding of `(*KintoneHandlers).ListApps` (`main.go` lines 321-374):
validation, the first fetch (`firstResp`), permission filtering, then a
second one-row probe fetch (`probeResp`) whose failure is swallowed:
`hasNext` stays `false` unless the probe succeeds with at least one app. -/
def listAppsExec (h : KintoneHandlers) (p : ListAppsParams)
    (firstResp : Except KErr (List KintoneAppDetail))
    (probeResp : Except KErr (List KintoneAppDetail)) :
    Except KErr (List KintoneAppDetail × Bool) :=
  if p.offset < 0 then
    Except.error ⟨invalidParamsCode, "Offset must be greater than or equal to 0"⟩
  else
    match
      (match p.limit with
       | none => Except.ok 100
       | some l =>
         if l < 1 || l > 100 then
           Except.error (⟨invalidParamsCode, "Limit must be between 1 and 100"⟩ : KErr)
         else Except.ok l) with
    | Except.error e => Except.error e
    | Except.ok _ =>
      match firstResp with
      | Except.error e => Except.error e
      | Except.ok appsRaw =>
        let apps := appsRaw.filter (fun a => (checkPermissions h a.appID).isNone)
        let hasNext :=
          match probeResp with
          | Except.error _ => false
          | Except.ok l₂ => decide (l₂.length > 0)
        Except.ok (apps, hasNext)

/-- C10: with valid arguments and a successful first fetch, `listApps`
succeeds whatever the probe outcome; a probe failure is swallowed and
reported as `hasNext=false`; `hasNext` is true exactly when the probe
succeeds with at least one app. -/
theorem listApps_probe_swallow (h : KintoneHandlers) (p : ListAppsParams)
    (apps₁ : List KintoneAppDetail)
    (probeResp : Except KErr (List KintoneAppDetail))
    (hoff : 0 ≤ p.offset)
    (hlim : ∀ l : Int, p.limit = some l → 1 ≤ l ∧ l ≤ 100) :
    (isErr (listAppsExec h p (Except.ok apps₁) probeResp) = false)
    ∧ (∀ e : KErr, probeResp = Except.error e →
      listAppsExec h p (Except.ok apps₁) probeResp
        = Except.ok (apps₁.filter (fun a => (checkPermissions h a.appID).isNone), false))
    ∧ (∀ l₂ : List KintoneAppDetail, probeResp = Except.ok l₂ →
      listAppsExec h p (Except.ok apps₁) probeResp
        = Except.ok (apps₁.filter (fun a => (checkPermissions h a.appID).isNone),
            decide (l₂.length > 0))) := by
  have hoff' : ¬ (p.offset < 0) := not_lt.mpr hoff
  have hmain : listAppsExec h p (Except.ok apps₁) probeResp
      = Except.ok (apps₁.filter (fun a => (checkPermissions h a.appID).isNone),
          match probeResp with
          | Except.error _ => false
          | Except.ok l₂ => decide (l₂.length > 0)) := by
    unfold listAppsExec
    cases hl : p.limit with
    | none => simp [hoff']
    | some l =>
      obtain ⟨h₁, h₂⟩ := hlim l hl
      have hlb : (l < 1 || l > 100) = false := by
        simp only [Bool.or_eq_false_iff, decide_eq_false_iff_not]
        exact ⟨not_lt.mpr h₁, not_lt.mpr h₂⟩
      simp [hoff', hlb]
  refine ⟨?_, ?_, ?_⟩
  · rw [hmain]; rfl
  · intro e he; rw [hmain, he]
  · intro l₂ hl₂; rw [hmain, hl₂]

/-- C10 witness: a failing probe and a succeeding probe. -/
theorem listApps_probe_swallow_inst :
    listAppsExec ⟨"u", "", "t", [], []⟩ ⟨0, none, none⟩
        (Except.ok [⟨"1", "App"⟩]) (Except.error ⟨internalErrorCode, "down"⟩)
      = Except.ok ([⟨"1", "App"⟩], false)
    ∧ listAppsExec ⟨"u", "", "t", [], []⟩ ⟨0, none, none⟩
        (Except.ok [⟨"1", "App"⟩]) (Except.ok [⟨"2", "Next"⟩])
      = Except.ok ([⟨"1", "App"⟩], true) := by
  constructor
  · exact (listApps_probe_swallow ⟨"u", "", "t", [], []⟩ ⟨0, none, none⟩ [⟨"1", "App"⟩]
      (Except.error ⟨internalErrorCode, "down"⟩) (by decide)
      (fun l hl => Option.noConfusion hl)).2.1 ⟨internalErrorCode, "down"⟩ rfl
  · exact (listApps_probe_swallow ⟨"u", "", "t", [], []⟩ ⟨0, none, none⟩ [⟨"1", "App"⟩]
      (Except.ok [⟨"2", "Next"⟩]) (by decide)
      (fun l hl => Option.noConfusion hl)).2.2 [⟨"2", "Next"⟩] rfl

/-- Path join used by the download path chooser (`filepath.Join dir name`
for a separator-free name). -/
def joinPath (dir name : List Char) : List Char := dir ++ '/' :: name

/-- Embedding of `filepath.Ext` for a separator-free file name: the suffix
beginning at the final dot, empty when there is no dot. -/
def goExt (s : List Char) : List Char :=
  let rt := s.reverse.takeWhile (fun c => c != '.')
  if rt.length = s.length then [] else '.' :: rt.reverse

/-- Embedding of `strings.TrimSuffix`. -/
def trimSuffixL (s suf : List Char) : List Char :=
  if suf.isSuffixOf s then s.take (s.length - suf.length) else s

/-- Embedding of `strings.HasSuffix(s, c)` for a one-character suffix. -/
def endsWithChar (c : Char) (s : List Char) : Bool :=
  s.getLast? == some c

/-- Embedding of `strings.LastIndex(s, " (")`: the index of the last
occurrence of the two-character pattern, `none` when absent. -/
def lastIndexSpaceParen (s : List Char) : Option Nat :=
  ((List.range s.length).filter (fun i => (s.drop i).take 2 == [' ', '('])).getLast?

/-- Decimal digit run check used by `strconv.Atoi`: non-empty and all
ASCII digits. -/
def allDigits (l : List Char) : Bool :=
  decide (l ≠ []) && l.all (fun c => c.isDigit)

/-- Numeric value of a digit run. -/
def charsToNat (l : List Char) : Nat :=
  l.foldl (fun acc c => acc * 10 + (c.toNat - Char.toNat '0')) 0

/-- Embedding of `strconv.Atoi`: optional sign followed by a non-empty
digit run, anything else is an error (`none`). -/
def goAtoi (l : List Char) : Option Int :=
  match l with
  | [] => none
  | c :: rest =>
    if c = '+' then
      if allDigits rest then some (charsToNat rest : Int) else none
    else if c = '-' then
      if allDigits rest then some (-(charsToNat rest : Int)) else none
    else
      if allDigits (c :: rest) then some (charsToNat (c :: rest) : Int) else none

/-- Embedding of the suffix-stripping block of `getDownloadFilePath`
(`main.go` lines 623-631): when the stem ends in `)` and contains `" ("`
at a positive index and the slice after `" ("` parses as a number, restart
numbering there.  (The slice retains the closing parenthesis, so the
parse in fact never succeeds; we prove that below.) -/
def stripNumSuffix (base : List Char) : List Char × Int :=
  if endsWithChar ')' base then
    match lastIndexSpaceParen base with
    | some i =>
      if i > 0 then
        match goAtoi (base.drop (i + 2)) with
        | some n => (base.take i, n)
        | none => (base, 1)
      else (base, 1)
    | none => (base, 1)
  else (base, 1)

/-- Decimal rendering of a `Nat`. -/
def natToChars (n : Nat) : List Char := Nat.toDigits 10 n

/-- Decimal rendering of an `Int` (`fmt.Sprintf` with `%d`). -/
def intToChars (n : Int) : List Char :=
  if n < 0 then '-' :: natToChars (-n).toNat else natToChars n.toNat

/-- The candidate name `fmt.Sprintf("%s (%d)%s", base, num, ext)`. -/
def mkNumbered (base : List Char) (num : Int) (ext : List Char) : List Char :=
  base ++ (' ' :: '(' :: intToChars num) ++ (')' :: ext)

/-- Embedding of the unbounded scan loop of `getDownloadFilePath`
(`main.go` lines 633-639), with explicit fuel: return the first candidate
the existence oracle `ex` reports as absent. -/
def scanLoop (ex : List Char → Bool) (dir base ext : List Char) :
    Int → Nat → Option (List Char)
  | _, 0 => none
  | num, fuel + 1 =>
    let p := joinPath dir (mkNumbered base num ext)
    if ex p then scanLoop ex dir base ext (num + 1) fuel
    else some p

/-- Embedding of `getDownloadFilePath` (`main.go` lines 612-640).  The
file system is the oracle `ex` (true = `os.Stat` succeeds); the download
directory is `dir`. -/
def getDownloadFilePath (ex : List Char → Bool) (dir fileName : List Char)
    (fuel : Nat) : Option (List Char) :=
  let p := joinPath dir fileName
  if ex p then
    let ext := goExt fileName
    let base := trimSuffixL fileName ext
    let bn := stripNumSuffix base
    scanLoop ex dir bn.1 ext bn.2 fuel
  else
    some p

theorem allDigits_false_of_paren_mem (l : List Char) (h : ')' ∈ l) :
    allDigits l = false := by
  unfold allDigits
  have : l.all (fun c => c.isDigit) = false := by
    cases hall : l.all (fun c => c.isDigit) with
    | false => rfl
    | true =>
      have := (List.all_eq_true.mp hall) ')' h
      simp [Char.isDigit] at this
  simp [this]

theorem mem_of_getLast_eq (l : List Char) (c : Char) (h : l.getLast? = some c) :
    c ∈ l := by
  have hm : c ∈ l.getLast? := Option.mem_def.mpr h
  obtain ⟨hne, heq⟩ := List.mem_getLast?_eq_getLast hm
  rw [heq]
  exact List.getLast_mem hne

theorem goAtoi_getLast_paren (l : List Char) (h : l.getLast? = some ')') :
    goAtoi l = none := by
  cases l with
  | nil => rfl
  | cons c rest =>
    have hmem : (')' : Char) ∈ c :: rest := mem_of_getLast_eq (c :: rest) ')' h
    have hrmem : rest = [] → c = ')' := by
      intro hnil
      rw [hnil] at h
      simpa using h
    have hrparen : rest ≠ [] → (')' : Char) ∈ rest := by
      intro hne
      cases hrest : rest with
      | nil => exact absurd hrest hne
      | cons a t =>
        rw [hrest] at h
        rw [List.getLast?_cons_cons] at h
        exact hrest ▸ mem_of_getLast_eq (a :: t) ')' h
    by_cases hplus : c = '+'
    · have hne : rest ≠ [] := by
        intro hnil
        rw [hrmem hnil] at hplus
        exact absurd hplus (by decide)
      simp only [goAtoi, hplus, if_true]
      rw [allDigits_false_of_paren_mem rest (hrparen hne)]
      simp
    · by_cases hminus : c = '-'
      · have hne : rest ≠ [] := by
          intro hnil
          rw [hrmem hnil] at hminus
          exact absurd hminus (by decide)
        simp only [goAtoi, hplus, hminus, if_true, if_false]
        rw [allDigits_false_of_paren_mem rest (hrparen hne)]
        simp
      · simp only [goAtoi, hplus, hminus, if_false]
        rw [allDigits_false_of_paren_mem (c :: rest) hmem]
        simp

theorem getLast_drop_ne_nil (l : List Char) (k : Nat) (h : l.drop k ≠ []) :
    (l.drop k).getLast? = l.getLast? := by
  conv_rhs => rw [← List.take_append_drop k l]
  rw [List.getLast?_append_of_ne_nil _ h]

/-- The suffix-stripping block never fires: the slice handed to `Atoi`
keeps the closing parenthesis (or is empty), so the parse always fails
and the loop always starts at 1 with the full stem. -/
theorem stripNumSuffix_eq (base : List Char) : stripNumSuffix base = (base, 1) := by
  unfold stripNumSuffix
  by_cases hp : endsWithChar ')' base = true
  · have hlast : base.getLast? = some ')' := by
      unfold endsWithChar at hp
      exact beq_iff_eq.mp hp
    rw [if_pos hp]
    cases hli : lastIndexSpaceParen base with
    | none => rfl
    | some i =>
      show (if i > 0 then
          match goAtoi (List.drop (i + 2) base) with
          | some n => (List.take i base, n)
          | none => (base, 1)
        else (base, 1)) = (base, 1)
      by_cases hi : i > 0
      · have hatoi : goAtoi (base.drop (i + 2)) = none := by
          by_cases hd : base.drop (i + 2) = []
          · rw [hd]; rfl
          · exact goAtoi_getLast_paren _ ((getLast_drop_ne_nil base (i + 2) hd).trans hlast)
        rw [if_pos hi, hatoi]
      · rw [if_neg hi]
  · rw [if_neg hp]

theorem scanLoop_free (ex : List Char → Bool) (dir base ext : List Char) :
    ∀ (fuel : Nat) (num : Int) (q : List Char),
      scanLoop ex dir base ext num fuel = some q → ex q = false := by
  intro fuel
  induction fuel with
  | zero =>
    intro num q hq
    exact Option.noConfusion hq
  | succ f ih =>
    intro num q hq
    unfold scanLoop at hq
    by_cases hex : ex (joinPath dir (mkNumbered base num ext)) = true
    · rw [if_pos hex] at hq
      exact ih (num + 1) q hq
    · rw [if_neg hex] at hq
      cases hq
      simpa using hex

theorem scanLoop_min (ex : List Char → Bool) (dir base ext : List Char) (n : Int)
    (hfreen : ex (joinPath dir (mkNumbered base n ext)) = false) :
    ∀ (fuel : Nat) (num : Int), num ≤ n →
      (∀ m : Int, num ≤ m → m < n → ex (joinPath dir (mkNumbered base m ext)) = true) →
      (n - num).toNat < fuel →
      scanLoop ex dir base ext num fuel
        = some (joinPath dir (mkNumbered base n ext)) := by
  intro fuel
  induction fuel with
  | zero =>
    intro num hle hexist hfuel
    omega
  | succ f ih =>
    intro num hle hexist hfuel
    unfold scanLoop
    by_cases heq : num = n
    · subst heq
      simp [hfreen]
    · have hlt : num < n := lt_of_le_of_ne hle heq
      have hexnum : ex (joinPath dir (mkNumbered base num ext)) = true :=
        hexist num le_rfl hlt
      rw [if_pos hexnum]
      exact ih (num + 1) (by omega) (fun m hm1 hm2 => hexist m (by omega) hm2) (by omega)

/-- C8: if the joined path for the resolved file name does not exist it is
chosen; otherwise the chosen path appends `" (n)"` before the extension
for the smallest `n ≥ 1` whose candidate does not exist; and the chosen
path never points at an existing file. -/
theorem getDownloadFilePath_disambiguation (ex : List Char → Bool)
    (dir fileName : List Char) (fuel : Nat) (n : Int) :
    (ex (joinPath dir fileName) = false →
      getDownloadFilePath ex dir fileName fuel = some (joinPath dir fileName))
    ∧ (ex (joinPath dir fileName) = true → 1 ≤ n →
      (∀ m : Int, 1 ≤ m → m < n →
        ex (joinPath dir
          (mkNumbered (trimSuffixL fileName (goExt fileName)) m (goExt fileName))) = true) →
      ex (joinPath dir
        (mkNumbered (trimSuffixL fileName (goExt fileName)) n (goExt fileName))) = false →
      (n - 1).toNat < fuel →
      getDownloadFilePath ex dir fileName fuel
        = some (joinPath dir
            (mkNumbered (trimSuffixL fileName (goExt fileName)) n (goExt fileName))))
    ∧ (∀ q : List Char, getDownloadFilePath ex dir fileName fuel = some q →
      ex q = false) := by
  refine ⟨?_, ?_, ?_⟩
  · intro hfree
    unfold getDownloadFilePath
    simp [hfree]
  · intro hex hn hall hfree hfuel
    unfold getDownloadFilePath
    simp only [hex, if_true, stripNumSuffix_eq]
    exact scanLoop_min ex dir (trimSuffixL fileName (goExt fileName)) (goExt fileName) n
      hfree fuel 1 hn (fun m hm1 hm2 => hall m hm1 hm2) hfuel
  · intro q hq
    unfold getDownloadFilePath at hq
    by_cases hex : ex (joinPath dir fileName) = true
    · rw [if_pos hex] at hq
      exact scanLoop_free ex dir _ _ fuel _ q hq
    · rw [if_neg hex] at hq
      cases hq
      simpa using hex

/-- C8 witness: with no existing file `a.txt` is kept; with `dl/a.txt`
present the second download gets `dl/a (1).txt`. -/
theorem getDownloadFilePath_disambiguation_inst :
    getDownloadFilePath (fun _ => false) "dl".toList "a.txt".toList 5
      = some "dl/a.txt".toList
    ∧ getDownloadFilePath (fun p => p == "dl/a.txt".toList) "dl".toList "a.txt".toList 5
      = some "dl/a (1).txt".toList := by
  constructor
  · exact (getDownloadFilePath_disambiguation (fun _ => false)
      "dl".toList "a.txt".toList 5 1).1 rfl
  · have hres := (getDownloadFilePath_disambiguation (fun p => p == "dl/a.txt".toList)
      "dl".toList "a.txt".toList 5 1).2.1 (by decide) (by decide)
      (fun m h1 h2 => absurd (h1.trans_lt h2) (lt_irrefl 1)) (by decide) (by decide)
    rw [hres]
    decide
